import Mathlib

/-!
Shallow embedding of the key-registry program
(`src/programs/key-registry/src/lib.rs`).

Modelling conventions:
* `Pubkey` and opaque byte arrays (`[u8; 32]`, `[u8; 64]`) are modelled as `Nat`.
* `u16` fields are `Nat` values kept below `2 ^ 16`; the release-profile Rust
  semantics of `member_count += 1` is wrapping, modelled as `% 65536`;
  `saturating_sub` is `Nat` subtraction, which already saturates at `0`.
* Each Anchor instruction becomes a function
  `ChainState → Except TxError ChainState`.  Anchor account resolution is part
  of the instruction semantics and runs before the handler body, in account
  order: loading a missing PDA account fails (`accountNotFound`), and an
  `init` constraint on an occupied PDA address fails (`accountAlreadyExists`).
  On any error the whole transaction aborts, so an `Except.error` result
  leaves the state untouched by construction.
* `Clock::get()?.unix_timestamp` is the `now : Int` argument of a step.
* PDA maps (`users`, `groups`, `codeLookups`, `links`) are total functions to
  `Option`; the membership roster is a `List` so that the number of live
  membership records of a group is expressible.
-/

namespace KeyRegistry

/-- `GroupRole` enum from the source (`Member`, `Moderator`, `Admin`, `Owner`). -/
inductive GroupRole where
  | Member
  | Moderator
  | Admin
  | Owner
deriving DecidableEq, Repr

/-- `role_to_rank` helper from the source. -/
def role_to_rank : GroupRole → Nat
  | .Member => 0
  | .Moderator => 1
  | .Admin => 2
  | .Owner => 3

/-- Permission bit constants from the source. -/
def PERM_SEND_MESSAGES : Nat := 1
def PERM_INVITE_MEMBERS : Nat := 2
def PERM_KICK_MEMBERS : Nat := 4
def PERM_MANAGE_SETTINGS : Nat := 8
def PERM_DELETE_MESSAGES : Nat := 16
def PERM_PIN_MESSAGES : Nat := 32
def PERM_MANAGE_ROLES : Nat := 64

/-- `KeyError` enum from the source. -/
inductive KeyError where
  | InvalidUsernameLength
  | InvalidUsernameCharacters
  | UsernameTaken
  | NotOwner
deriving DecidableEq, Repr

/-- `GroupError` enum from the source. -/
inductive GroupError where
  | InvalidGroupNameLength
  | InvalidGroupDescriptionLength
  | InvalidPublicCodeLength
  | InvalidPublicCodeCharacters
  | GroupFull
  | NotGroupOwner
  | InsufficientPermissions
  | MemberBanned
  | InvalidInviteLink
  | InviteLinkExhausted
  | OwnerCannotLeave
  | CannotKickOwner
  | CannotChangeOwnerRole
  | InvalidInviteCodeLength
  | InvalidInviteCodeCharacters
  | PublicCodeTaken
  | CannotKickSelf
  | CannotLeaveAsOwner
  | RequiresApproval
  | MemberAlreadyExists
  | MemberNotFound
  | InvalidGroupId
deriving DecidableEq, Repr

/-- Transaction-level error: a program error, or an Anchor account
resolution failure (`init` on an occupied address / load of a missing one). -/
inductive TxError where
  | key (e : KeyError)
  | group (e : GroupError)
  | accountAlreadyExists
  | accountNotFound
deriving DecidableEq, Repr

/-- `UserAccount` record (bump omitted: PDA plumbing). -/
structure UserAccount where
  owner : Nat
  username : String
  created_at : Int
  encryption_key : Nat
deriving DecidableEq, Repr

/-- `GroupAccount` record (bump omitted). -/
structure GroupAccount where
  owner : Nat
  group_id : Nat
  public_code : String
  name : String
  description : String
  avatar_arweave_id : String
  is_public : Bool
  is_searchable : Bool
  invite_only : Bool
  max_members : Nat
  allow_member_invites : Bool
  require_approval : Bool
  enable_replies : Bool
  enable_reactions : Bool
  enable_read_receipts : Bool
  enable_typing_indicators : Bool
  group_encryption_key : Nat
  member_count : Nat
  created_at : Int
  updated_at : Int
deriving DecidableEq, Repr

/-- `GroupMemberAccount` record (bump omitted). -/
structure GroupMemberAccount where
  group_id : Nat
  member : Nat
  role : GroupRole
  permissions : Nat
  encrypted_group_key : Nat
  joined_at : Int
  last_read_at : Int
  is_active : Bool
  is_muted : Bool
  is_banned : Bool
  invited_by : Nat
deriving DecidableEq, Repr

/-- `InviteLinkAccount` record (bump omitted). -/
structure InviteLinkAccount where
  group_id : Nat
  invite_code : String
  created_by : Nat
  expires_at : Int
  max_uses : Nat
  use_count : Nat
  created_at : Int
  is_active : Bool
deriving DecidableEq, Repr

/-- `GroupCodeLookupAccount` record (bump omitted). -/
structure GroupCodeLookupAccount where
  public_code : String
  group_id : Nat
deriving DecidableEq, Repr

/-- All records addressable by the program's PDAs. -/
structure ChainState where
  /-- PDA `["username", lowercase(username)]`. -/
  users : String → Option UserAccount
  /-- PDA `["group", group_id]`. -/
  groups : Nat → Option GroupAccount
  /-- PDA `["group:member", group_id, member]`; kept as a list so the number
  of live membership records of a group is a length. -/
  members : List GroupMemberAccount
  /-- PDA `["group:code", lowercase(public_code)]`. -/
  codeLookups : String → Option GroupCodeLookupAccount
  /-- PDA `["group:invite", group_id, invite_code]`. -/
  links : Nat → String → Option InviteLinkAccount

def initState : ChainState :=
  { users := fun _ => none
    groups := fun _ => none
    members := []
    codeLookups := fun _ => none
    links := fun _ _ => none }

/-- Key predicate of the membership PDA `["group:member", group_id, member]`. -/
def memberKeyIs (group_id member : Nat) (m : GroupMemberAccount) : Bool :=
  m.group_id == group_id && m.member == member

/-- Load the membership record at PDA `["group:member", group_id, member]`. -/
def findMember (s : ChainState) (group_id member : Nat) : Option GroupMemberAccount :=
  s.members.find? (memberKeyIs group_id member)

/-- The `require!(cond, err)` macro: abort with `err` unless `cond` holds. -/
def requireTx (cond : Prop) [Decidable cond] (e : TxError)
    (k : Except TxError ChainState) : Except TxError ChainState :=
  if cond then k else .error e

/-- `register_username`: validate, then initialise the username PDA. -/
def register_username (now : Int) (owner : Nat) (username : String)
    (encryption_key : Nat) (s : ChainState) : Except TxError ChainState :=
  -- Anchor: `user_account` is `init` at `["username", username.to_lowercase()]`
  if (s.users username.toLower).isSome then .error .accountAlreadyExists
  else
    requireTx (3 ≤ username.utf8ByteSize ∧ username.utf8ByteSize ≤ 20)
        (.key .InvalidUsernameLength) <|
    requireTx (username.toList.all fun c => c.isAlphanum || c == '_')
        (.key .InvalidUsernameCharacters) <|
    let ua : UserAccount :=
      { owner := owner
        username := username.toLower
        created_at := now
        encryption_key := encryption_key }
    .ok { s with users := fun u =>
      if u = username.toLower then some ua else s.users u }

/-- `lookup_username`: read-only; fails only if the PDA account is missing. -/
def lookup_username (username : String) (s : ChainState) :
    Except TxError ChainState :=
  if (s.users username.toLower).isSome then .ok s else .error .accountNotFound

/-- `transfer_username`: the account is not seed-constrained; the caller
designates a stored record (referenced here by its storage key). -/
def transfer_username (current_owner : Nat) (username : String) (new_owner : Nat)
    (s : ChainState) : Except TxError ChainState :=
  match s.users username with
  | none => .error .accountNotFound
  | some ua =>
    requireTx (ua.owner = current_owner) (.key .NotOwner) <|
    .ok { s with users := fun u =>
      if u = username then some { ua with owner := new_owner } else s.users u }

/-- `close_account`: owner check, then the `close` constraint removes the
record. -/
def close_account (owner : Nat) (username : String) (s : ChainState) :
    Except TxError ChainState :=
  match s.users username.toLower with
  | none => .error .accountNotFound
  | some ua =>
    requireTx (ua.owner = owner) (.key .NotOwner) <|
    .ok { s with users := fun u =>
      if u = username.toLower then none else s.users u }

/-- `update_encryption_key`: owner check, then overwrite the key. -/
def update_encryption_key (owner : Nat) (username : String)
    (new_encryption_key : Nat) (s : ChainState) : Except TxError ChainState :=
  match s.users username with
  | none => .error .accountNotFound
  | some ua =>
    requireTx (ua.owner = owner) (.key .NotOwner) <|
    .ok { s with users := fun u =>
      if u = username then some { ua with encryption_key := new_encryption_key }
      else s.users u }

/-- `create_group`: initialise the group PDA and the owner membership PDA,
with the owner as sole `Owner`-role member and `member_count = 1`. -/
def create_group (now : Int) (owner group_id : Nat) (name description : String)
    (is_public is_searchable invite_only : Bool) (max_members : Nat)
    (allow_member_invites : Bool) (group_encryption_key : Nat)
    (s : ChainState) : Except TxError ChainState :=
  -- Anchor: `group_account` is `init` at `["group", group_id]`
  if (s.groups group_id).isSome then .error .accountAlreadyExists
  -- Anchor: `owner_member_account` is `init` at `["group:member", group_id, owner]`
  else if (findMember s group_id owner).isSome then .error .accountAlreadyExists
  else
    requireTx (name.utf8ByteSize ≠ 0 ∧ name.utf8ByteSize ≤ 100)
        (.group .InvalidGroupNameLength) <|
    requireTx (description.utf8ByteSize ≤ 500)
        (.group .InvalidGroupDescriptionLength) <|
    let g : GroupAccount :=
      { owner := owner
        group_id := group_id
        public_code := ""
        name := name
        description := description
        avatar_arweave_id := ""
        is_public := is_public
        is_searchable := is_searchable
        invite_only := invite_only
        max_members := max_members % 65536  -- argument is a u16
        allow_member_invites := allow_member_invites
        require_approval := false
        enable_replies := true
        enable_reactions := true
        enable_read_receipts := true
        enable_typing_indicators := true
        group_encryption_key := group_encryption_key
        member_count := 1   -- owner is first member
        created_at := now
        updated_at := now }
    let owner_member : GroupMemberAccount :=
      { group_id := group_id
        member := owner
        role := GroupRole.Owner
        permissions := 0xFFFF    -- all permissions
        encrypted_group_key := 0 -- `[0u8; 64]`
        joined_at := now
        last_read_at := 0
        is_active := true
        is_muted := false
        is_banned := false
        invited_by := owner }
    .ok { s with
      groups := fun x => if x = group_id then some g else s.groups x
      members := owner_member :: s.members }

/-- `set_group_code`: owner-only; initialise the code-lookup PDA and record
the code on the group. -/
def set_group_code (owner group_id : Nat) (public_code : String)
    (s : ChainState) : Except TxError ChainState :=
  match s.groups group_id with
  | none => .error .accountNotFound
  | some g =>
    -- Anchor constraint: `group_account.owner == owner.key() @ NotGroupOwner`
    if ¬ g.owner = owner then .error (.group .NotGroupOwner)
    -- Anchor: `group_code_lookup` is `init` at `["group:code", lowercase(code)]`
    else if (s.codeLookups public_code.toLower).isSome then
      .error .accountAlreadyExists
    else
      requireTx (3 ≤ public_code.utf8ByteSize ∧ public_code.utf8ByteSize ≤ 20)
          (.group .InvalidPublicCodeLength) <|
      requireTx (public_code.toList.all fun c => c.isLower || c.isDigit || c == '-')
          (.group .InvalidPublicCodeCharacters) <|
      .ok { s with
        groups := fun x =>
          if x = group_id then some { g with public_code := public_code }
          else s.groups x
        codeLookups := fun c =>
          if c = public_code.toLower then
            some { public_code := public_code.toLower, group_id := g.group_id }
          else s.codeLookups c }

/-- `join_group`: capacity check, create a `Member`-role membership and bump
the (wrapping 16-bit) member counter. -/
def join_group (now : Int) (new_member group_id encrypted_group_key : Nat)
    (s : ChainState) : Except TxError ChainState :=
  match s.groups group_id with
  | none => .error .accountNotFound
  | some g =>
    -- Anchor: `member_account` is `init` at `["group:member", group_id, new_member]`
    if (findMember s group_id new_member).isSome then .error .accountAlreadyExists
    else
      requireTx (g.max_members = 0 ∨ g.member_count < g.max_members)
          (.group .GroupFull) <|
      let m : GroupMemberAccount :=
        { group_id := group_id
          member := new_member
          role := GroupRole.Member
          permissions := PERM_SEND_MESSAGES
          encrypted_group_key := encrypted_group_key
          joined_at := now
          last_read_at := 0
          is_active := true
          is_muted := false
          is_banned := false
          invited_by := new_member }
      .ok { s with
        members := m :: s.members
        groups := fun x =>
          if x = group_id then
            some { g with member_count := (g.member_count + 1) % 65536, updated_at := now }
          else s.groups x }

/-- `leave_group`: owner may not leave; the membership is closed and the
counter decremented (`saturating_sub`). -/
def leave_group (now : Int) (member group_id : Nat) (s : ChainState) :
    Except TxError ChainState :=
  match s.groups group_id with
  | none => .error .accountNotFound
  | some g =>
    match findMember s group_id member with
    | none => .error .accountNotFound
    | some m =>
      requireTx (m.role ≠ GroupRole.Owner) (.group .OwnerCannotLeave) <|
      .ok { s with
        members := s.members.eraseP (memberKeyIs group_id member)
        groups := fun x =>
          if x = group_id then
            some { g with member_count := g.member_count - 1, updated_at := now }
          else s.groups x }

/-- The `can_invite` / `can_create_invite` authorization expression shared by
`invite_member` and `create_invite_link`. -/
def can_invite (g : GroupAccount) (m : GroupMemberAccount) : Prop :=
  m.role = GroupRole.Owner ∨ m.role = GroupRole.Admin ∨
    m.role = GroupRole.Moderator ∨
    (g.allow_member_invites ∧ m.permissions &&& PERM_INVITE_MEMBERS ≠ 0)

instance (g : GroupAccount) (m : GroupMemberAccount) :
    Decidable (can_invite g m) := by
  unfold can_invite; infer_instance

/-- `invite_member`: inviter authorization, capacity check, create the
invitee membership with `invited_by = inviter`. -/
def invite_member (now : Int) (inviter group_id invited_user encrypted_group_key : Nat)
    (s : ChainState) : Except TxError ChainState :=
  match s.groups group_id with
  | none => .error .accountNotFound
  | some g =>
    match findMember s group_id inviter with
    | none => .error .accountNotFound
    | some im =>
      -- Anchor: `invited_member_account` is `init`
      if (findMember s group_id invited_user).isSome then
        .error .accountAlreadyExists
      else
        requireTx (can_invite g im) (.group .InsufficientPermissions) <|
        requireTx (g.max_members = 0 ∨ g.member_count < g.max_members)
            (.group .GroupFull) <|
        let mrec : GroupMemberAccount :=
          { group_id := group_id
            member := invited_user
            role := GroupRole.Member
            permissions := PERM_SEND_MESSAGES
            encrypted_group_key := encrypted_group_key
            joined_at := now
            last_read_at := 0
            is_active := true
            is_muted := false
            is_banned := false
            invited_by := inviter }
        .ok { s with
          members := mrec :: s.members
          groups := fun x =>
            if x = group_id then
              some { g with member_count := (g.member_count + 1) % 65536, updated_at := now }
            else s.groups x }

/-- `kick_member`: moderator+ only, owner unkickable, non-owner kicker must
strictly outrank the target; closes the target membership. -/
def kick_member (now : Int) (kicker group_id kicked_user : Nat) (s : ChainState) :
    Except TxError ChainState :=
  match s.groups group_id with
  | none => .error .accountNotFound
  | some g =>
    match findMember s group_id kicker with
    | none => .error .accountNotFound
    | some km =>
      match findMember s group_id kicked_user with
      | none => .error .accountNotFound
      | some tm =>
        requireTx (km.role = GroupRole.Owner ∨ km.role = GroupRole.Admin ∨
            km.role = GroupRole.Moderator) (.group .InsufficientPermissions) <|
        requireTx (tm.role ≠ GroupRole.Owner) (.group .CannotKickOwner) <|
        -- `if kicker_member.role != Owner { require!(kicker_rank > kicked_rank) }`
        requireTx (km.role = GroupRole.Owner ∨
            role_to_rank km.role > role_to_rank tm.role)
            (.group .InsufficientPermissions) <|
        .ok { s with
          members := s.members.eraseP (memberKeyIs group_id kicked_user)
          groups := fun x =>
            if x = group_id then
              some { g with member_count := g.member_count - 1, updated_at := now }
            else s.groups x }

/-- The permission mask assigned by the `match new_role` in `update_member_role`. -/
def role_permissions : GroupRole → Nat
  | .Owner => 0xFFFF  -- all permissions
  | .Admin =>
      PERM_SEND_MESSAGES ||| PERM_INVITE_MEMBERS ||| PERM_KICK_MEMBERS |||
        PERM_MANAGE_ROLES
  | .Moderator => PERM_SEND_MESSAGES ||| PERM_INVITE_MEMBERS ||| PERM_KICK_MEMBERS
  | .Member => PERM_SEND_MESSAGES

/-- `update_member_role`: owner/admin only, the owner role untouchable, only
owner promotes to admin; overwrites role and resets the permission mask. -/
def update_member_role (updater group_id target_user : Nat) (new_role : GroupRole)
    (s : ChainState) : Except TxError ChainState :=
  match s.groups group_id with
  | none => .error .accountNotFound
  | some _g =>
    match findMember s group_id updater with
    | none => .error .accountNotFound
    | some um =>
      match findMember s group_id target_user with
      | none => .error .accountNotFound
      | some tm =>
        requireTx (um.role = GroupRole.Owner ∨ um.role = GroupRole.Admin)
            (.group .InsufficientPermissions) <|
        requireTx (tm.role ≠ GroupRole.Owner) (.group .CannotChangeOwnerRole) <|
        -- `if new_role == Admin { require!(updater.role == Owner) }`
        requireTx (new_role = GroupRole.Admin → um.role = GroupRole.Owner)
            (.group .InsufficientPermissions) <|
        .ok { s with
          members := s.members.map fun x =>
            if memberKeyIs group_id target_user x then
              { x with role := new_role, permissions := role_permissions new_role }
            else x }

/-- `create_invite_link`: authorization, code validation, initialise the
invite-link PDA with `use_count = 0`, `is_active = true`. -/
def create_invite_link (now : Int) (creator group_id : Nat) (invite_code : String)
    (expires_at : Int) (max_uses : Nat) (s : ChainState) :
    Except TxError ChainState :=
  match s.groups group_id with
  | none => .error .accountNotFound
  | some g =>
    match findMember s group_id creator with
    | none => .error .accountNotFound
    | some cm =>
      -- Anchor: `invite_link_account` is `init` at `["group:invite", gid, code]`
      if (s.links group_id invite_code).isSome then .error .accountAlreadyExists
      else
        requireTx (can_invite g cm) (.group .InsufficientPermissions) <|
        requireTx (8 ≤ invite_code.utf8ByteSize ∧ invite_code.utf8ByteSize ≤ 16)
            (.group .InvalidInviteCodeLength) <|
        requireTx (invite_code.toList.all Char.isAlphanum)
            (.group .InvalidInviteCodeCharacters) <|
        let l : InviteLinkAccount :=
          { group_id := group_id
            invite_code := invite_code
            created_by := creator
            expires_at := expires_at
            max_uses := max_uses % 65536  -- argument is a u16
            use_count := 0
            created_at := now
            is_active := true }
        .ok { s with links := fun gid c =>
          if gid = group_id ∧ c = invite_code then some l else s.links gid c }

/-- `revoke_invite_link`: creator or moderator+ may deactivate the link. -/
def revoke_invite_link (revoker group_id : Nat) (invite_code : String)
    (s : ChainState) : Except TxError ChainState :=
  match s.groups group_id with
  | none => .error .accountNotFound
  | some _g =>
    match findMember s group_id revoker with
    | none => .error .accountNotFound
    | some rm =>
      match s.links group_id invite_code with
      | none => .error .accountNotFound
      | some l =>
        requireTx (l.created_by = revoker ∨ rm.role = GroupRole.Owner ∨
            rm.role = GroupRole.Admin ∨ rm.role = GroupRole.Moderator)
            (.group .InsufficientPermissions) <|
        .ok { s with links := fun gid c =>
          if gid = group_id ∧ c = invite_code then some { l with is_active := false }
          else s.links gid c }

/-- `lookup_group_by_code`: read-only two-hop dereference. -/
def lookup_group_by_code (public_code : String) (s : ChainState) :
    Except TxError ChainState :=
  match s.codeLookups public_code.toLower with
  | none => .error .accountNotFound
  | some lk =>
    if (s.groups lk.group_id).isSome then .ok s else .error .accountNotFound

/-- The instruction surface of the program. -/
inductive Instr where
  | register_username (owner : Nat) (username : String) (encryption_key : Nat)
  | lookup_username (username : String)
  | transfer_username (current_owner : Nat) (username : String) (new_owner : Nat)
  | close_account (owner : Nat) (username : String)
  | update_encryption_key (owner : Nat) (username : String)
      (new_encryption_key : Nat)
  | create_group (owner group_id : Nat) (name description : String)
      (is_public is_searchable invite_only : Bool) (max_members : Nat)
      (allow_member_invites : Bool) (group_encryption_key : Nat)
  | set_group_code (owner group_id : Nat) (public_code : String)
  | join_group (new_member group_id encrypted_group_key : Nat)
  | leave_group (member group_id : Nat)
  | invite_member (inviter group_id invited_user encrypted_group_key : Nat)
  | kick_member (kicker group_id kicked_user : Nat)
  | update_member_role (updater group_id target_user : Nat) (new_role : GroupRole)
  | create_invite_link (creator group_id : Nat) (invite_code : String)
      (expires_at : Int) (max_uses : Nat)
  | revoke_invite_link (revoker group_id : Nat) (invite_code : String)
  | lookup_group_by_code (public_code : String)

/-- One transaction: dispatch an instruction at a given clock time. -/
def exec (i : Instr) (now : Int) (s : ChainState) : Except TxError ChainState :=
  match i with
  | .register_username o u k => register_username now o u k s
  | .lookup_username u => lookup_username u s
  | .transfer_username o u n => transfer_username o u n s
  | .close_account o u => close_account o u s
  | .update_encryption_key o u k => update_encryption_key o u k s
  | .create_group o gid n d p se io mm ami gek =>
      create_group now o gid n d p se io mm ami gek s
  | .set_group_code o gid c => set_group_code o gid c s
  | .join_group nm gid ek => join_group now nm gid ek s
  | .leave_group m gid => leave_group now m gid s
  | .invite_member iv gid u ek => invite_member now iv gid u ek s
  | .kick_member k gid t => kick_member now k gid t s
  | .update_member_role u gid t r => update_member_role u gid t r s
  | .create_invite_link c gid code e mu => create_invite_link now c gid code e mu s
  | .revoke_invite_link r gid code => revoke_invite_link r gid code s
  | .lookup_group_by_code c => lookup_group_by_code c s

/-- One successful transaction. -/
def Step (s s' : ChainState) : Prop := ∃ i now, exec i now s = .ok s'

/-- States reachable from the empty chain. -/
def Reachable (s : ChainState) : Prop :=
  Relation.ReflTransGen Step initState s

/-- The live membership records of a group. -/
def liveMembers (s : ChainState) (gid : Nat) : List GroupMemberAccount :=
  s.members.filter fun m => m.group_id == gid

/-- The number of live membership records of a group. -/
def liveCount (s : ChainState) (gid : Nat) : Nat := (liveMembers s gid).length

/-- The live membership records of a group holding the `Owner` role. -/
def ownerRecords (s : ChainState) (gid : Nat) : List GroupMemberAccount :=
  s.members.filter fun m => m.group_id == gid && decide (m.role = GroupRole.Owner)

/-- The permission mask of every live membership is the fixed mask of its role. -/
def PermInv (s : ChainState) : Prop :=
  ∀ m ∈ s.members, m.permissions = role_permissions m.role

/-- Every membership record belongs to an existing group. -/
def MemGroupInv (s : ChainState) : Prop :=
  ∀ m ∈ s.members, (s.groups m.group_id).isSome

/-- The stored `member_count` of every group equals its number of live
membership records. -/
def CountInv (s : ChainState) : Prop :=
  ∀ gid g, s.groups gid = some g → g.member_count = liveCount s gid

/-- A step after which no group roster exceeds the 16-bit counter range. -/
def StepBounded (s s' : ChainState) : Prop :=
  Step s s' ∧ ∀ gid, liveCount s' gid ≤ 65535

/-- Reachability along traces whose rosters stay within the 16-bit range. -/
def ReachableBounded (s : ChainState) : Prop :=
  Relation.ReflTransGen StepBounded initState s

/-- The owner membership created by the concrete `create_group` call below. -/
def ownerRec : GroupMemberAccount :=
  { group_id := 0, member := 0, role := GroupRole.Owner, permissions := 0xFFFF,
    encrypted_group_key := 0, joined_at := 0, last_read_at := 0,
    is_active := true, is_muted := false, is_banned := false, invited_by := 0 }

/-- The membership created by the `k`-th concrete `join_group` call below. -/
def joinedRec (k : Nat) : GroupMemberAccount :=
  { group_id := 0, member := k, role := GroupRole.Member,
    permissions := PERM_SEND_MESSAGES, encrypted_group_key := 0, joined_at := 0,
    last_read_at := 0, is_active := true, is_muted := false, is_banned := false,
    invited_by := k }

/-- Roster after `n` joins: members `n, n-1, ..., 1` and the owner `0`. -/
def roster : Nat → List GroupMemberAccount
  | 0 => [ownerRec]
  | n + 1 => joinedRec (n + 1) :: roster n

/-- The concrete unlimited-capacity group record after `n` joins. -/
def bigGroup (n : Nat) : GroupAccount :=
  { owner := 0, group_id := 0, public_code := "", name := "g", description := "",
    avatar_arweave_id := "", is_public := false, is_searchable := false,
    invite_only := false, max_members := 0, allow_member_invites := false,
    require_approval := false, enable_replies := true, enable_reactions := true,
    enable_read_receipts := true, enable_typing_indicators := true,
    group_encryption_key := 0, member_count := (n + 1) % 65536,
    created_at := 0, updated_at := 0 }

/-- Chain state holding the one unlimited-capacity group after `n` joins. -/
def bigState (n : Nat) : ChainState :=
  { users := fun _ => none
    groups := fun x => if x = 0 then some (bigGroup n) else none
    members := roster n
    codeLookups := fun _ => none
    links := fun _ _ => none }

/-- Modelled from the spec's words (§4.3, §8): the fixed permission mask of
each role — `Member`: SEND; `Moderator`: SEND|INVITE|KICK; `Admin`:
SEND|INVITE|KICK|MANAGE_ROLES; `Owner`: all bits set. -/
def fixedMaskSpec : GroupRole → Nat
  | .Member => PERM_SEND_MESSAGES
  | .Moderator => PERM_SEND_MESSAGES ||| PERM_INVITE_MEMBERS ||| PERM_KICK_MEMBERS
  | .Admin =>
      PERM_SEND_MESSAGES ||| PERM_INVITE_MEMBERS ||| PERM_KICK_MEMBERS |||
        PERM_MANAGE_ROLES
  | .Owner => 0xFFFF

/-- Member `1` of the concrete group, promoted to `Owner` by
`update_member_role`. -/
def promotedRec : GroupMemberAccount :=
  { joinedRec 1 with role := GroupRole.Owner,
                     permissions := role_permissions GroupRole.Owner }

/-- The concrete state holding two `Owner`-role memberships of group `0`. -/
def twoOwnerState : ChainState :=
  { bigState 1 with members := [promotedRec, ownerRec] }

/-- The concrete group created with `max_members = 1`: already full. -/
def cappedGroup : GroupAccount := { bigGroup 0 with max_members := 1 }

/-- The concrete state holding the full `max_members = 1` group. -/
def cappedState : ChainState :=
  { bigState 0 with groups := fun x => if x = 0 then some cappedGroup else none }

/-- Member `1` of the concrete group after a role change to `Moderator`. -/
def modRec : GroupMemberAccount :=
  { joinedRec 1 with role := GroupRole.Moderator,
                     permissions := role_permissions GroupRole.Moderator }

/-- The concrete state after `update_member_role` made member `1` a
`Moderator`. -/
def modState : ChainState :=
  { bigState 1 with members := [modRec, ownerRec] }

/-- The concrete group with `invite_only` and `require_approval` raised. -/
def flaggedGroup : GroupAccount :=
  { bigGroup 0 with invite_only := true, require_approval := true }

/-- A state holding the flagged group with only its owner as member. -/
def flaggedState : ChainState :=
  { bigState 0 with groups := fun x => if x = 0 then some flaggedGroup else none }

/-- The concrete invite link created for the concrete group. -/
def linkRec : InviteLinkAccount :=
  { group_id := 0, invite_code := "abcd1234", created_by := 0, expires_at := 0,
    max_uses := 0, use_count := 0, created_at := 0, is_active := true }

/-- The concrete state holding the group, its owner and one invite link. -/
def linkState : ChainState :=
  { bigState 0 with links := fun gid c =>
      if gid = 0 ∧ c = "abcd1234" then some linkRec else none }

/-! ### Lemmas and claim theorems -/

theorem memberKeyIs_iff {gid who : Nat} {m : GroupMemberAccount} :
    memberKeyIs gid who m = true ↔ m.group_id = gid ∧ m.member = who := by
  simp [memberKeyIs]

theorem register_username_ok {now : Int} {o k : Nat} {u : String}
    {s s' : ChainState} (h : register_username now o u k s = .ok s') :
    s'.members = s.members ∧ s'.groups = s.groups ∧ s'.links = s.links := by
  unfold register_username at h
  split at h
  · exact absurd h (by simp)
  · rw [requireTx] at h
    split at h
    · rw [requireTx] at h
      split at h
      · exact (Except.ok.inj h) ▸ ⟨rfl, rfl, rfl⟩
      · exact absurd h (by simp)
    · exact absurd h (by simp)

theorem lookup_username_ok {u : String} {s s' : ChainState}
    (h : lookup_username u s = .ok s') : s' = s := by
  unfold lookup_username at h
  split at h
  · exact Except.ok.inj h ▸ rfl
  · exact absurd h (by simp)

theorem transfer_username_ok {o n : Nat} {u : String} {s s' : ChainState}
    (h : transfer_username o u n s = .ok s') :
    s'.members = s.members ∧ s'.groups = s.groups ∧ s'.links = s.links := by
  unfold transfer_username at h
  split at h
  · exact absurd h (by simp)
  · rw [requireTx] at h
    split at h
    · exact (Except.ok.inj h) ▸ ⟨rfl, rfl, rfl⟩
    · exact absurd h (by simp)

theorem close_account_ok {o : Nat} {u : String} {s s' : ChainState}
    (h : close_account o u s = .ok s') :
    s'.members = s.members ∧ s'.groups = s.groups ∧ s'.links = s.links := by
  unfold close_account at h
  split at h
  · exact absurd h (by simp)
  · rw [requireTx] at h
    split at h
    · exact (Except.ok.inj h) ▸ ⟨rfl, rfl, rfl⟩
    · exact absurd h (by simp)

theorem update_encryption_key_ok {o k : Nat} {u : String} {s s' : ChainState}
    (h : update_encryption_key o u k s = .ok s') :
    s'.members = s.members ∧ s'.groups = s.groups ∧ s'.links = s.links := by
  unfold update_encryption_key at h
  split at h
  · exact absurd h (by simp)
  · rw [requireTx] at h
    split at h
    · exact (Except.ok.inj h) ▸ ⟨rfl, rfl, rfl⟩
    · exact absurd h (by simp)

theorem lookup_group_by_code_ok {c : String} {s s' : ChainState}
    (h : lookup_group_by_code c s = .ok s') : s' = s := by
  unfold lookup_group_by_code at h
  split at h
  · exact absurd h (by simp)
  · split at h
    · exact Except.ok.inj h ▸ rfl
    · exact absurd h (by simp)

theorem create_group_ok {now : Int} {o gid mm gek : Nat} {nm ds : String}
    {p se io ami : Bool} {s s' : ChainState}
    (h : create_group now o gid nm ds p se io mm ami gek s = .ok s') :
    s.groups gid = none ∧
    s' = { s with
      groups := fun x =>
        if x = gid then
          some { owner := o, group_id := gid, public_code := "", name := nm,
                 description := ds, avatar_arweave_id := "", is_public := p,
                 is_searchable := se, invite_only := io,
                 max_members := mm % 65536, allow_member_invites := ami,
                 require_approval := false, enable_replies := true,
                 enable_reactions := true, enable_read_receipts := true,
                 enable_typing_indicators := true, group_encryption_key := gek,
                 member_count := 1, created_at := now, updated_at := now }
        else s.groups x
      members :=
        { group_id := gid, member := o, role := GroupRole.Owner,
          permissions := 0xFFFF, encrypted_group_key := 0, joined_at := now,
          last_read_at := 0, is_active := true, is_muted := false,
          is_banned := false, invited_by := o } :: s.members } := by
  unfold create_group at h
  split at h
  · exact absurd h (by simp)
  next h1 =>
    split at h
    · exact absurd h (by simp)
    · rw [requireTx] at h
      split at h
      · rw [requireTx] at h
        split at h
        · exact ⟨Option.not_isSome_iff_eq_none.mp h1, (Except.ok.inj h).symm⟩
        · exact absurd h (by simp)
      · exact absurd h (by simp)

theorem set_group_code_ok {o gid : Nat} {pc : String} {s s' : ChainState}
    (h : set_group_code o gid pc s = .ok s') :
    ∃ g, s.groups gid = some g ∧
      s'.members = s.members ∧ s'.links = s.links ∧
      s'.groups = fun x =>
        if x = gid then some { g with public_code := pc } else s.groups x := by
  unfold set_group_code at h
  split at h
  · exact absurd h (by simp)
  next g hg =>
    split at h
    · exact absurd h (by simp)
    · split at h
      · exact absurd h (by simp)
      · rw [requireTx] at h
        split at h
        · rw [requireTx] at h
          split at h
          · exact ⟨g, hg, (Except.ok.inj h) ▸ ⟨rfl, rfl, rfl⟩⟩
          · exact absurd h (by simp)
        · exact absurd h (by simp)

theorem join_group_ok {now : Int} {nm gid ek : Nat} {s s' : ChainState}
    (h : join_group now nm gid ek s = .ok s') :
    ∃ g, s.groups gid = some g ∧ findMember s gid nm = none ∧
      (g.max_members = 0 ∨ g.member_count < g.max_members) ∧
      s' = { s with
        members :=
          { group_id := gid, member := nm, role := GroupRole.Member,
            permissions := PERM_SEND_MESSAGES, encrypted_group_key := ek,
            joined_at := now, last_read_at := 0, is_active := true,
            is_muted := false, is_banned := false,
            invited_by := nm } :: s.members
        groups := fun x =>
          if x = gid then
            some { g with member_count := (g.member_count + 1) % 65536,
                          updated_at := now }
          else s.groups x } := by
  unfold join_group at h
  split at h
  · exact absurd h (by simp)
  next g hg =>
    split at h
    · exact absurd h (by simp)
    next h2 =>
      rw [requireTx] at h
      split at h
      next hcap =>
        exact ⟨g, hg, Option.not_isSome_iff_eq_none.mp h2, hcap,
          (Except.ok.inj h).symm⟩
      · exact absurd h (by simp)

theorem leave_group_ok {now : Int} {who gid : Nat} {s s' : ChainState}
    (h : leave_group now who gid s = .ok s') :
    ∃ g m, s.groups gid = some g ∧ findMember s gid who = some m ∧
      m.role ≠ GroupRole.Owner ∧
      s' = { s with
        members := s.members.eraseP (memberKeyIs gid who)
        groups := fun x =>
          if x = gid then
            some { g with member_count := g.member_count - 1, updated_at := now }
          else s.groups x } := by
  unfold leave_group at h
  split at h
  · exact absurd h (by simp)
  next g hg =>
    split at h
    · exact absurd h (by simp)
    next m hm =>
      rw [requireTx] at h
      split at h
      next hrole => exact ⟨g, m, hg, hm, hrole, (Except.ok.inj h).symm⟩
      · exact absurd h (by simp)

theorem invite_member_ok {now : Int} {iv gid u ek : Nat} {s s' : ChainState}
    (h : invite_member now iv gid u ek s = .ok s') :
    ∃ g im, s.groups gid = some g ∧ findMember s gid iv = some im ∧
      findMember s gid u = none ∧ can_invite g im ∧
      (g.max_members = 0 ∨ g.member_count < g.max_members) ∧
      s' = { s with
        members :=
          { group_id := gid, member := u, role := GroupRole.Member,
            permissions := PERM_SEND_MESSAGES, encrypted_group_key := ek,
            joined_at := now, last_read_at := 0, is_active := true,
            is_muted := false, is_banned := false,
            invited_by := iv } :: s.members
        groups := fun x =>
          if x = gid then
            some { g with member_count := (g.member_count + 1) % 65536,
                          updated_at := now }
          else s.groups x } := by
  unfold invite_member at h
  split at h
  · exact absurd h (by simp)
  next g hg =>
    split at h
    · exact absurd h (by simp)
    next im him =>
      split at h
      · exact absurd h (by simp)
      next h3 =>
        rw [requireTx] at h
        split at h
        next hinv =>
          rw [requireTx] at h
          split at h
          next hcap =>
            exact ⟨g, im, hg, him, Option.not_isSome_iff_eq_none.mp h3, hinv,
              hcap, (Except.ok.inj h).symm⟩
          · exact absurd h (by simp)
        · exact absurd h (by simp)

theorem kick_member_ok {now : Int} {kk gid t : Nat} {s s' : ChainState}
    (h : kick_member now kk gid t s = .ok s') :
    ∃ g km tm, s.groups gid = some g ∧ findMember s gid kk = some km ∧
      findMember s gid t = some tm ∧
      (km.role = GroupRole.Owner ∨ km.role = GroupRole.Admin ∨
        km.role = GroupRole.Moderator) ∧
      tm.role ≠ GroupRole.Owner ∧
      (km.role = GroupRole.Owner ∨ role_to_rank km.role > role_to_rank tm.role) ∧
      s' = { s with
        members := s.members.eraseP (memberKeyIs gid t)
        groups := fun x =>
          if x = gid then
            some { g with member_count := g.member_count - 1, updated_at := now }
          else s.groups x } := by
  unfold kick_member at h
  split at h
  · exact absurd h (by simp)
  next g hg =>
    split at h
    · exact absurd h (by simp)
    next km hkm =>
      split at h
      · exact absurd h (by simp)
      next tm htm =>
        rw [requireTx] at h
        split at h
        next hperm =>
          rw [requireTx] at h
          split at h
          next howner =>
            rw [requireTx] at h
            split at h
            next hrank =>
              exact ⟨g, km, tm, hg, hkm, htm, hperm, howner, hrank,
                (Except.ok.inj h).symm⟩
            · exact absurd h (by simp)
          · exact absurd h (by simp)
        · exact absurd h (by simp)

theorem update_member_role_ok {u gid t : Nat} {r : GroupRole} {s s' : ChainState}
    (h : update_member_role u gid t r s = .ok s') :
    ∃ g um tm, s.groups gid = some g ∧ findMember s gid u = some um ∧
      findMember s gid t = some tm ∧
      (um.role = GroupRole.Owner ∨ um.role = GroupRole.Admin) ∧
      tm.role ≠ GroupRole.Owner ∧
      (r = GroupRole.Admin → um.role = GroupRole.Owner) ∧
      s' = { s with
        members := s.members.map fun x =>
          if memberKeyIs gid t x then
            { x with role := r, permissions := role_permissions r }
          else x } := by
  unfold update_member_role at h
  split at h
  · exact absurd h (by simp)
  next g hg =>
    split at h
    · exact absurd h (by simp)
    next um hum =>
      split at h
      · exact absurd h (by simp)
      next tm htm =>
        rw [requireTx] at h
        split at h
        next hperm =>
          rw [requireTx] at h
          split at h
          next howner =>
            rw [requireTx] at h
            split at h
            next hadm =>
              exact ⟨g, um, tm, hg, hum, htm, hperm, howner, hadm,
                (Except.ok.inj h).symm⟩
            · exact absurd h (by simp)
          · exact absurd h (by simp)
        · exact absurd h (by simp)

theorem create_invite_link_ok {now e : Int} {c gid mu : Nat} {code : String}
    {s s' : ChainState}
    (h : create_invite_link now c gid code e mu s = .ok s') :
    ∃ g cm, s.groups gid = some g ∧ findMember s gid c = some cm ∧
      s.links gid code = none ∧ can_invite g cm ∧
      s'.members = s.members ∧ s'.groups = s.groups ∧
      s'.links = fun gid' c' =>
        if gid' = gid ∧ c' = code then
          some { group_id := gid, invite_code := code, created_by := c,
                 expires_at := e, max_uses := mu % 65536, use_count := 0,
                 created_at := now, is_active := true }
        else s.links gid' c' := by
  unfold create_invite_link at h
  split at h
  · exact absurd h (by simp)
  next g hg =>
    split at h
    · exact absurd h (by simp)
    next cm hcm =>
      split at h
      · exact absurd h (by simp)
      next h3 =>
        rw [requireTx] at h
        split at h
        next hinv =>
          rw [requireTx] at h
          split at h
          · rw [requireTx] at h
            split at h
            · exact ⟨g, cm, hg, hcm, Option.not_isSome_iff_eq_none.mp h3, hinv,
                (Except.ok.inj h) ▸ ⟨rfl, rfl, rfl⟩⟩
            · exact absurd h (by simp)
          · exact absurd h (by simp)
        · exact absurd h (by simp)

theorem revoke_invite_link_ok {r gid : Nat} {code : String} {s s' : ChainState}
    (h : revoke_invite_link r gid code s = .ok s') :
    ∃ g rm l, s.groups gid = some g ∧ findMember s gid r = some rm ∧
      s.links gid code = some l ∧
      (l.created_by = r ∨ rm.role = GroupRole.Owner ∨
        rm.role = GroupRole.Admin ∨ rm.role = GroupRole.Moderator) ∧
      s'.members = s.members ∧ s'.groups = s.groups ∧
      s'.links = fun gid' c' =>
        if gid' = gid ∧ c' = code then some { l with is_active := false }
        else s.links gid' c' := by
  unfold revoke_invite_link at h
  split at h
  · exact absurd h (by simp)
  next g hg =>
    split at h
    · exact absurd h (by simp)
    next rm hrm =>
      split at h
      · exact absurd h (by simp)
      next l hl =>
        rw [requireTx] at h
        split at h
        next hauth =>
          exact ⟨g, rm, l, hg, hrm, hl, hauth, (Except.ok.inj h) ▸ ⟨rfl, rfl, rfl⟩⟩
        · exact absurd h (by simp)

theorem permInv_of_members_eq {s s' : ChainState}
    (hm : s'.members = s.members) (hs : PermInv s) : PermInv s' := by
  intro m hmem
  exact hs m (hm ▸ hmem)

theorem permInv_step {s s' : ChainState} (hs : PermInv s) (st : Step s s') :
    PermInv s' := by
  obtain ⟨i, now, h⟩ := st
  cases i with
  | register_username o u k =>
    simp only [exec] at h
    exact permInv_of_members_eq (register_username_ok h).1 hs
  | lookup_username u =>
    simp only [exec] at h
    exact (lookup_username_ok h) ▸ hs
  | transfer_username o u n =>
    simp only [exec] at h
    exact permInv_of_members_eq (transfer_username_ok h).1 hs
  | close_account o u =>
    simp only [exec] at h
    exact permInv_of_members_eq (close_account_ok h).1 hs
  | update_encryption_key o u k =>
    simp only [exec] at h
    exact permInv_of_members_eq (update_encryption_key_ok h).1 hs
  | create_group o gid nm ds p se io mm ami gek =>
    simp only [exec] at h
    obtain ⟨-, rfl⟩ := create_group_ok h
    intro m hmem
    rcases List.mem_cons.mp hmem with rfl | hmem
    · rfl
    · exact hs m hmem
  | set_group_code o gid c =>
    simp only [exec] at h
    obtain ⟨g, -, hm, -, -⟩ := set_group_code_ok h
    exact permInv_of_members_eq hm hs
  | join_group nm gid ek =>
    simp only [exec] at h
    obtain ⟨g, -, -, -, rfl⟩ := join_group_ok h
    intro m hmem
    rcases List.mem_cons.mp hmem with rfl | hmem
    · rfl
    · exact hs m hmem
  | leave_group who gid =>
    simp only [exec] at h
    obtain ⟨g, m0, -, -, -, rfl⟩ := leave_group_ok h
    intro m hmem
    exact hs m (List.eraseP_subset _ hmem)
  | invite_member iv gid u ek =>
    simp only [exec] at h
    obtain ⟨g, im, -, -, -, -, -, rfl⟩ := invite_member_ok h
    intro m hmem
    rcases List.mem_cons.mp hmem with rfl | hmem
    · rfl
    · exact hs m hmem
  | kick_member kk gid t =>
    simp only [exec] at h
    obtain ⟨g, km, tm, -, -, -, -, -, -, rfl⟩ := kick_member_ok h
    intro m hmem
    exact hs m (List.eraseP_subset _ hmem)
  | update_member_role u gid t r =>
    simp only [exec] at h
    obtain ⟨g, um, tm, -, -, -, -, -, -, rfl⟩ := update_member_role_ok h
    intro m hmem
    obtain ⟨x, hx, rfl⟩ := List.mem_map.mp hmem
    by_cases hk : memberKeyIs gid t x
    · simp only [hk, if_pos]
    · simp only [hk, if_neg, not_false_iff]
      exact hs x hx
  | create_invite_link c gid code e mu =>
    simp only [exec] at h
    obtain ⟨g, cm, -, -, -, -, hm, -, -⟩ := create_invite_link_ok h
    exact permInv_of_members_eq hm hs
  | revoke_invite_link r gid code =>
    simp only [exec] at h
    obtain ⟨g, rm, l, -, -, -, -, hm, -, -⟩ := revoke_invite_link_ok h
    exact permInv_of_members_eq hm hs
  | lookup_group_by_code c =>
    simp only [exec] at h
    exact (lookup_group_by_code_ok h) ▸ hs

theorem permInv_reachable {s : ChainState} (h : Reachable s) : PermInv s := by
  induction h with
  | refl => intro m hm; simp [initState] at hm
  | tail _ st ih => exact permInv_step ih st

theorem liveCount_eq {s : ChainState} {gid : Nat} :
    liveCount s gid = (s.members.filter fun m => m.group_id == gid).length := rfl

theorem reachable_of_reachableBounded {s : ChainState}
    (h : ReachableBounded s) : Reachable s :=
  Relation.ReflTransGen.mono (fun _ _ hb => hb.1) h

theorem filter_map_keyUpdate {l : List GroupMemberAccount} {gid0 : Nat}
    {f : GroupMemberAccount → GroupMemberAccount}
    (hf : ∀ x, (f x).group_id = x.group_id) :
    ((l.map f).filter fun m => m.group_id == gid0).length
      = (l.filter fun m => m.group_id == gid0).length := by
  induction l with
  | nil => rfl
  | cons c cs ih =>
    simp only [List.map_cons, List.filter_cons, hf c]
    by_cases hc : (c.group_id == gid0) = true
    · simp only [hc, if_pos, List.length_cons, ih]
    · simp only [hc, if_neg, Bool.false_eq_true, not_false_iff, ih]

theorem eraseP_filter_length {l : List GroupMemberAccount} {gid who : Nat}
    {m : GroupMemberAccount} (hf : l.find? (memberKeyIs gid who) = some m) :
    1 ≤ (l.filter fun x => x.group_id == gid).length ∧
    ((l.eraseP (memberKeyIs gid who)).filter fun x => x.group_id == gid).length
      = (l.filter fun x => x.group_id == gid).length - 1 := by
  induction l with
  | nil => simp [List.find?] at hf
  | cons c cs ih =>
    by_cases hc : memberKeyIs gid who c = true
    · have hcg : c.group_id = gid := (memberKeyIs_iff.mp hc).1
      rw [List.eraseP_cons_of_pos hc]
      simp [List.filter_cons, hcg]
    · have hfind : cs.find? (memberKeyIs gid who) = some m := by
        rwa [List.find?_cons_of_neg _ hc] at hf
      obtain ⟨ih1, ih2⟩ := ih hfind
      rw [List.eraseP_cons_of_neg (by simpa using hc)]
      simp only [List.filter_cons]
      by_cases hcg : (c.group_id == gid) = true
      · simp only [hcg, if_pos, List.length_cons]
        omega
      · simp only [hcg, if_neg, Bool.false_eq_true, not_false_iff]
        omega

theorem eraseP_filter_other {l : List GroupMemberAccount} {gid who gid' : Nat}
    (hne : gid' ≠ gid) :
    ((l.eraseP (memberKeyIs gid who)).filter fun x => x.group_id == gid')
      = l.filter fun x => x.group_id == gid' := by
  induction l with
  | nil => rfl
  | cons c cs ih =>
    by_cases hc : memberKeyIs gid who c = true
    · have hcg : c.group_id = gid := (memberKeyIs_iff.mp hc).1
      rw [List.eraseP_cons_of_pos hc]
      have : (c.group_id == gid') = false := by
        simp [hcg, Ne.symm hne]
      simp [List.filter_cons, this]
    · rw [List.eraseP_cons_of_neg (by simpa using hc)]
      simp only [List.filter_cons]
      by_cases hcg : (c.group_id == gid') = true
      · simp only [hcg, if_pos, ih]
      · simp only [hcg, if_neg, Bool.false_eq_true, not_false_iff, ih]

theorem invs_of_eq {s s' : ChainState} (hm : s'.members = s.members)
    (hg : s'.groups = s.groups) (hmg : MemGroupInv s) (hc : CountInv s) :
    MemGroupInv s' ∧ CountInv s' := by
  constructor
  · intro m hmem
    rw [hg]
    exact hmg m (hm ▸ hmem)
  · intro gid g hgid
    rw [hg] at hgid
    rw [liveCount_eq, hm]
    exact hc gid g hgid

theorem countInv_step {s s' : ChainState} (hmg : MemGroupInv s) (hc : CountInv s)
    (st : Step s s') (hb : ∀ gid, liveCount s' gid ≤ 65535) :
    MemGroupInv s' ∧ CountInv s' := by
  obtain ⟨i, now, h⟩ := st
  cases i with
  | register_username o u k =>
    simp only [exec] at h
    obtain ⟨hm, hgr, -⟩ := register_username_ok h
    exact invs_of_eq hm hgr hmg hc
  | lookup_username u =>
    simp only [exec] at h
    obtain rfl := lookup_username_ok h
    exact ⟨hmg, hc⟩
  | transfer_username o u n =>
    simp only [exec] at h
    obtain ⟨hm, hgr, -⟩ := transfer_username_ok h
    exact invs_of_eq hm hgr hmg hc
  | close_account o u =>
    simp only [exec] at h
    obtain ⟨hm, hgr, -⟩ := close_account_ok h
    exact invs_of_eq hm hgr hmg hc
  | update_encryption_key o u k =>
    simp only [exec] at h
    obtain ⟨hm, hgr, -⟩ := update_encryption_key_ok h
    exact invs_of_eq hm hgr hmg hc
  | create_group o gid nm ds p se io mm ami gek =>
    simp only [exec] at h
    obtain ⟨hnone, rfl⟩ := create_group_ok h
    have hzero : (s.members.filter fun x => x.group_id == gid) = [] := by
      rw [List.filter_eq_nil_iff]
      intro m hmem hbeq
      have hmg' : m.group_id = gid := by simpa using hbeq
      have hsm := hmg m hmem
      rw [hmg', hnone] at hsm
      simp at hsm
    constructor
    · intro m hmem
      rcases List.mem_cons.mp hmem with rfl | hmem
      · simp
      · by_cases hx : m.group_id = gid
        · simp [hx]
        · have := hmg m hmem
          simpa [hx] using this
    · intro gid' g' hg'
      by_cases hx : gid' = gid
      · subst hx
        simp only [if_pos] at hg'
        obtain rfl := Option.some.inj hg'
        simp [liveCount_eq, List.filter_cons, hzero]
      · simp only [hx, if_neg, not_false_iff] at hg'
        have := hc gid' g' hg'
        rw [liveCount_eq] at this ⊢
        simp only [List.filter_cons]
        have hne : ((gid : Nat) == gid') = false := by
          simp [Ne.symm hx]
        simpa [hne] using this
  | set_group_code o gid c =>
    simp only [exec] at h
    obtain ⟨g, hg, hm, -, hgr⟩ := set_group_code_ok h
    constructor
    · intro m hmem
      rw [hgr]
      by_cases hx : m.group_id = gid
      · simp [hx]
      · simpa [hx] using hmg m (hm ▸ hmem)
    · intro gid' g' hg'
      rw [hgr] at hg'
      rw [liveCount_eq, hm]
      by_cases hx : gid' = gid
      · subst hx
        simp only [if_pos] at hg'
        obtain rfl := Option.some.inj hg'
        exact hc gid' g hg
      · simp only [hx, if_neg, not_false_iff] at hg'
        exact hc gid' g' hg'
  | join_group nm gid ek =>
    simp only [exec] at h
    obtain ⟨g, hg, hnone, hcap, rfl⟩ := join_group_ok h
    constructor
    · intro m hmem
      rcases List.mem_cons.mp hmem with rfl | hmem
      · simp
      · by_cases hx : m.group_id = gid
        · simp [hx]
        · simpa [hx] using hmg m hmem
    · intro gid' g' hg'
      by_cases hx : gid' = gid
      · subst hx
        simp only [if_pos] at hg'
        obtain rfl := Option.some.inj hg'
        have hcount := hc gid' g hg
        have hbound := hb gid'
        rw [liveCount_eq] at hcount hbound ⊢
        simp only [List.filter_cons] at hbound ⊢
        simp only [show ((gid' : Nat) == gid') = true by simp] at hbound ⊢
        simp only [if_pos, List.length_cons] at hbound ⊢
        omega
      · simp only [hx, if_neg, not_false_iff] at hg'
        have := hc gid' g' hg'
        rw [liveCount_eq] at this ⊢
        simp only [List.filter_cons]
        have hne : ((gid : Nat) == gid') = false := by
          simp [Ne.symm hx]
        simpa [hne] using this
  | leave_group who gid =>
    simp only [exec] at h
    obtain ⟨g, m0, hg, hfm, -, rfl⟩ := leave_group_ok h
    constructor
    · intro m hmem
      have hmem' := List.eraseP_subset _ hmem
      by_cases hx : m.group_id = gid
      · simp [hx]
      · simpa [hx] using hmg m hmem'
    · intro gid' g' hg'
      by_cases hx : gid' = gid
      · subst hx
        simp only [if_pos] at hg'
        obtain rfl := Option.some.inj hg'
        have hcount := hc gid' g hg
        obtain ⟨h1, h2⟩ := eraseP_filter_length hfm
        rw [liveCount_eq] at hcount ⊢
        simp only [h2]
        omega
      · simp only [hx, if_neg, not_false_iff] at hg'
        have := hc gid' g' hg'
        rw [liveCount_eq] at this ⊢
        rw [eraseP_filter_other hx]
        exact this
  | invite_member iv gid u ek =>
    simp only [exec] at h
    obtain ⟨g, im, hg, him, hnone, hinv, hcap, rfl⟩ := invite_member_ok h
    constructor
    · intro m hmem
      rcases List.mem_cons.mp hmem with rfl | hmem
      · simp
      · by_cases hx : m.group_id = gid
        · simp [hx]
        · simpa [hx] using hmg m hmem
    · intro gid' g' hg'
      by_cases hx : gid' = gid
      · subst hx
        simp only [if_pos] at hg'
        obtain rfl := Option.some.inj hg'
        have hcount := hc gid' g hg
        have hbound := hb gid'
        rw [liveCount_eq] at hcount hbound ⊢
        simp only [List.filter_cons] at hbound ⊢
        simp only [show ((gid' : Nat) == gid') = true by simp] at hbound ⊢
        simp only [if_pos, List.length_cons] at hbound ⊢
        omega
      · simp only [hx, if_neg, not_false_iff] at hg'
        have := hc gid' g' hg'
        rw [liveCount_eq] at this ⊢
        simp only [List.filter_cons]
        have hne : ((gid : Nat) == gid') = false := by
          simp [Ne.symm hx]
        simpa [hne] using this
  | kick_member kk gid t =>
    simp only [exec] at h
    obtain ⟨g, km, tm, hg, hkm, htm, -, -, -, rfl⟩ := kick_member_ok h
    constructor
    · intro m hmem
      have hmem' := List.eraseP_subset _ hmem
      by_cases hx : m.group_id = gid
      · simp [hx]
      · simpa [hx] using hmg m hmem'
    · intro gid' g' hg'
      by_cases hx : gid' = gid
      · subst hx
        simp only [if_pos] at hg'
        obtain rfl := Option.some.inj hg'
        have hcount := hc gid' g hg
        obtain ⟨h1, h2⟩ := eraseP_filter_length htm
        rw [liveCount_eq] at hcount ⊢
        simp only [h2]
        omega
      · simp only [hx, if_neg, not_false_iff] at hg'
        have := hc gid' g' hg'
        rw [liveCount_eq] at this ⊢
        rw [eraseP_filter_other hx]
        exact this
  | update_member_role u gid t r =>
    simp only [exec] at h
    obtain ⟨g, um, tm, hg, hum, htm, -, -, -, rfl⟩ := update_member_role_ok h
    have hpres : ∀ x : GroupMemberAccount,
        ((if memberKeyIs gid t x then
            { x with role := r, permissions := role_permissions r }
          else x) : GroupMemberAccount).group_id = x.group_id := by
      intro x
      by_cases hk : memberKeyIs gid t x = true
      · simp [hk]
      · simp [hk]
    constructor
    · intro m hmem
      obtain ⟨x, hx, rfl⟩ := List.mem_map.mp hmem
      rw [hpres x]
      exact hmg x hx
    · intro gid' g' hg'
      have := hc gid' g' hg'
      rw [liveCount_eq] at this ⊢
      rw [filter_map_keyUpdate hpres]
      exact this
  | create_invite_link c gid code e mu =>
    simp only [exec] at h
    obtain ⟨g, cm, -, -, -, -, hm, hgr, -⟩ := create_invite_link_ok h
    exact invs_of_eq hm hgr hmg hc
  | revoke_invite_link r gid code =>
    simp only [exec] at h
    obtain ⟨g, rm, l, -, -, -, -, hm, hgr, -⟩ := revoke_invite_link_ok h
    exact invs_of_eq hm hgr hmg hc
  | lookup_group_by_code c =>
    simp only [exec] at h
    obtain rfl := lookup_group_by_code_ok h
    exact ⟨hmg, hc⟩

theorem invs_reachableBounded {s : ChainState} (h : ReachableBounded s) :
    MemGroupInv s ∧ CountInv s := by
  induction h with
  | refl =>
    constructor
    · intro m hm
      simp [initState] at hm
    · intro gid g hg
      simp [initState] at hg
  | tail _ st ih => exact countInv_step ih.1 ih.2 st.1 st.2

theorem links_step_inactive {i : Instr} {now : Int} {s s' : ChainState}
    (h : exec i now s = .ok s') {gid : Nat} {code : String}
    {l : InviteLinkAccount} (hl : s.links gid code = some l)
    (ha : l.is_active = false) :
    ∃ l', s'.links gid code = some l' ∧ l'.is_active = false := by
  cases i with
  | register_username o u k =>
    simp only [exec] at h
    obtain ⟨-, -, hlk⟩ := register_username_ok h
    exact ⟨l, hlk ▸ hl, ha⟩
  | lookup_username u =>
    simp only [exec] at h
    obtain rfl := lookup_username_ok h
    exact ⟨l, hl, ha⟩
  | transfer_username o u n =>
    simp only [exec] at h
    obtain ⟨-, -, hlk⟩ := transfer_username_ok h
    exact ⟨l, hlk ▸ hl, ha⟩
  | close_account o u =>
    simp only [exec] at h
    obtain ⟨-, -, hlk⟩ := close_account_ok h
    exact ⟨l, hlk ▸ hl, ha⟩
  | update_encryption_key o u k =>
    simp only [exec] at h
    obtain ⟨-, -, hlk⟩ := update_encryption_key_ok h
    exact ⟨l, hlk ▸ hl, ha⟩
  | create_group o gid0 nm ds p se io mm ami gek =>
    simp only [exec] at h
    obtain ⟨-, rfl⟩ := create_group_ok h
    exact ⟨l, hl, ha⟩
  | set_group_code o gid0 c =>
    simp only [exec] at h
    obtain ⟨g, -, -, hlk, -⟩ := set_group_code_ok h
    exact ⟨l, hlk ▸ hl, ha⟩
  | join_group nm gid0 ek =>
    simp only [exec] at h
    obtain ⟨g, -, -, -, rfl⟩ := join_group_ok h
    exact ⟨l, hl, ha⟩
  | leave_group who gid0 =>
    simp only [exec] at h
    obtain ⟨g, m0, -, -, -, rfl⟩ := leave_group_ok h
    exact ⟨l, hl, ha⟩
  | invite_member iv gid0 u ek =>
    simp only [exec] at h
    obtain ⟨g, im, -, -, -, -, -, rfl⟩ := invite_member_ok h
    exact ⟨l, hl, ha⟩
  | kick_member kk gid0 t =>
    simp only [exec] at h
    obtain ⟨g, km, tm, -, -, -, -, -, -, rfl⟩ := kick_member_ok h
    exact ⟨l, hl, ha⟩
  | update_member_role u gid0 t r =>
    simp only [exec] at h
    obtain ⟨g, um, tm, -, -, -, -, -, -, rfl⟩ := update_member_role_ok h
    exact ⟨l, hl, ha⟩
  | create_invite_link c gid0 code0 e mu =>
    simp only [exec] at h
    obtain ⟨g, cm, -, -, hnone, -, -, -, hlk⟩ := create_invite_link_ok h
    rw [hlk]
    dsimp only
    by_cases hk : gid = gid0 ∧ code = code0
    · obtain ⟨rfl, rfl⟩ := hk
      rw [hnone] at hl
      cases hl
    · rw [if_neg hk]
      exact ⟨l, hl, ha⟩
  | revoke_invite_link r gid0 code0 =>
    simp only [exec] at h
    obtain ⟨g, rm, l0, -, -, hl0, -, -, -, hlk⟩ := revoke_invite_link_ok h
    rw [hlk]
    dsimp only
    by_cases hk : gid = gid0 ∧ code = code0
    · obtain ⟨rfl, rfl⟩ := hk
      rw [if_pos ⟨rfl, rfl⟩]
      exact ⟨{ l0 with is_active := false }, rfl, rfl⟩
    · rw [if_neg hk]
      exact ⟨l, hl, ha⟩
  | lookup_group_by_code c =>
    simp only [exec] at h
    obtain rfl := lookup_group_by_code_ok h
    exact ⟨l, hl, ha⟩

theorem exec_error_cases {i : Instr} {now : Int} {s : ChainState} {e : TxError}
    (h : exec i now s = .error e) :
    e ≠ .group .RequiresApproval ∧ e ≠ .group .MemberBanned := by
  cases i <;>
    simp only [exec, register_username, lookup_username, transfer_username,
      close_account, update_encryption_key, create_group, set_group_code,
      join_group, leave_group, invite_member, kick_member, update_member_role,
      create_invite_link, revoke_invite_link, lookup_group_by_code,
      requireTx] at h <;>
    (repeat' split at h) <;>
    first
      | (obtain rfl := Except.error.inj h; exact ⟨by decide, by decide⟩)
      | simp at h

theorem roster_member_le (n : Nat) : ∀ m ∈ roster n, m.member ≤ n := by
  induction n with
  | zero =>
    intro m hm
    simp only [roster, List.mem_singleton] at hm
    subst hm
    exact Nat.le_refl 0
  | succ k ih =>
    intro m hm
    rcases List.mem_cons.mp hm with rfl | hm
    · exact Nat.le_refl _
    · exact Nat.le_succ_of_le (ih m hm)

theorem roster_find_none {n k : Nat} (h : n < k) :
    (roster n).find? (memberKeyIs 0 k) = none := by
  rw [List.find?_eq_none]
  intro m hm hkey
  have hmem : m.member = k := (memberKeyIs_iff.mp hkey).2
  have := roster_member_le n m hm
  omega

theorem findMember_bigState_none {n k : Nat} (h : n < k) :
    findMember (bigState n) 0 k = none :=
  roster_find_none h

theorem roster_length (n : Nat) : (roster n).length = n + 1 := by
  induction n with
  | zero => rfl
  | succ k ih => simp [roster, ih]

theorem roster_filter (n : Nat) :
    ((roster n).filter fun m => m.group_id == 0) = roster n := by
  rw [List.filter_eq_self]
  intro m hm
  induction n with
  | zero =>
    simp only [roster, List.mem_singleton] at hm
    subst hm
    rfl
  | succ k ih =>
    rcases List.mem_cons.mp hm with rfl | hm'
    · rfl
    · exact ih hm'

theorem liveCount_bigState (n : Nat) : liveCount (bigState n) 0 = n + 1 := by
  rw [liveCount_eq]
  show ((roster n).filter fun m => m.group_id == 0).length = n + 1
  rw [roster_filter, roster_length]

theorem bigState_zero :
    exec (.create_group 0 0 "g" "" false false false 0 false 0) 0 initState
      = .ok (bigState 0) := rfl

theorem bigState_step (n : Nat) :
    exec (.join_group (n + 1) 0 0) 0 (bigState n) = .ok (bigState (n + 1)) := by
  show join_group 0 (n + 1) 0 0 (bigState n) = .ok (bigState (n + 1))
  have hfind : findMember (bigState n) 0 (n + 1) = none :=
    findMember_bigState_none (Nat.lt_succ_self n)
  unfold join_group
  have hg : (bigState n).groups 0 = some (bigGroup n) := rfl
  rw [hg]
  simp only [hfind, Option.isSome_none, Bool.false_eq_true, if_false, requireTx]
  have hcap : (bigGroup n).max_members = 0 ∨
      (bigGroup n).member_count < (bigGroup n).max_members := Or.inl rfl
  rw [if_pos hcap]
  refine congrArg Except.ok ?_
  simp only [bigState, bigGroup, roster]
  refine congrArg₂
    (fun a b =>
      ChainState.mk (fun _ => none) a b (fun _ => none) (fun _ _ => none)) ?_ ?_
  · funext x
    by_cases hx : x = 0
    · subst hx
      simp only [if_pos, Option.some.injEq, GroupAccount.mk.injEq, and_true,
        true_and, eq_self_iff_true]
      omega
    · simp only [hx, if_neg, not_false_iff]
  · rfl

theorem bigState_reachable (n : Nat) : Reachable (bigState n) := by
  induction n with
  | zero =>
    exact Relation.ReflTransGen.single
      ⟨.create_group 0 0 "g" "" false false false 0 false 0, 0, bigState_zero⟩
  | succ k ih =>
    exact Relation.ReflTransGen.tail ih ⟨.join_group (k + 1) 0 0, 0, bigState_step k⟩

theorem liveCount_bigState_le (n gid : Nat) : liveCount (bigState n) gid ≤ n + 1 := by
  rw [liveCount_eq]
  calc ((bigState n).members.filter fun m => m.group_id == gid).length
      ≤ (bigState n).members.length := List.length_filter_le _ _
    _ = n + 1 := roster_length n

theorem bigState_one_reachableBounded : ReachableBounded (bigState 1) := by
  have h1 : StepBounded initState (bigState 0) := by
    refine ⟨⟨.create_group 0 0 "g" "" false false false 0 false 0, 0, bigState_zero⟩, ?_⟩
    intro gid
    have := liveCount_bigState_le 0 gid
    omega
  have h2 : StepBounded (bigState 0) (bigState 1) := by
    refine ⟨⟨.join_group 1 0 0, 0, bigState_step 0⟩, ?_⟩
    intro gid
    have := liveCount_bigState_le 1 gid
    omega
  exact Relation.ReflTransGen.tail (Relation.ReflTransGen.single h1) h2

theorem role_permissions_eq_fixedMaskSpec (r : GroupRole) :
    role_permissions r = fixedMaskSpec r := by
  cases r <;> rfl

theorem promote_step :
    exec (.update_member_role 0 0 1 .Owner) 0 (bigState 1)
      = .ok twoOwnerState := rfl

theorem capped_create_step :
    exec (.create_group 0 0 "g" "" false false false 1 false 0) 0 initState
      = .ok cappedState := rfl

theorem mod_step :
    exec (.update_member_role 0 0 1 .Moderator) 0 (bigState 1)
      = .ok modState := rfl

theorem link_create_step :
    exec (.create_invite_link 0 0 "abcd1234" 0 0) 0 (bigState 0)
      = .ok linkState := rfl

/-- C1: the claim says no operation can ever produce a second `Owner`-role
membership of a group.  The code violates this: `update_member_role` never
rejects `new_role = Owner`, so the group owner (or an admin) can promote a
plain member to `Owner`, after which two distinct `Owner` memberships of the
same group are live.  This theorem evaluates the code on that failing trace:
create the group (owner `0`), let `1` join, then
`update_member_role(updater 0, target 1, Owner)` — the reachable result holds
two `Owner`-role membership records for group `0`. -/
theorem C1_two_owners_reachable :
    ∃ s, Reachable s ∧ (ownerRecords s 0).length = 2 :=
  ⟨twoOwnerState,
    Relation.ReflTransGen.tail (bigState_reachable 1)
      ⟨.update_member_role 0 0 1 .Owner, 0, promote_step⟩,
    rfl⟩

/-- C2 counterexample: the claim that every reachable state satisfies
`member_count = |live memberships|` fails at the explicit reachable state
`bigState 65535`: the `u16` counter wraps to `0` when the 65536-th member
joins the unlimited-capacity group, while 65536 membership records are live. -/
theorem C2_counterexample :
    ¬ (∀ s, Reachable s →
        ∀ gid g, s.groups gid = some g → g.member_count = liveCount s gid) := by
  intro hclaim
  have h := hclaim (bigState 65535) (bigState_reachable 65535) 0 (bigGroup 65535) rfl
  have h0 : (bigGroup 65535).member_count = 0 := by norm_num [bigGroup]
  rw [h0, liveCount_bigState] at h
  exact absurd h.symm (by omega)

/-- C2 amended: along every trace in which no group roster ever exceeds
`65535` live memberships (so the 16-bit counter cannot wrap), the stored `member_count` of every
group equals its number of live membership records. -/
theorem C2_member_count_invariant_bounded (s : ChainState)
    (h : ReachableBounded s) :
    ∀ gid g, s.groups gid = some g → g.member_count = liveCount s gid :=
  (invs_reachableBounded h).2

/-- C2 witness: the invariant instantiated at the concrete bounded-reachable
state with an owner and one joined member. -/
theorem C2_member_count_invariant_bounded_witness :
    (bigGroup 1).member_count = liveCount (bigState 1) 0 :=
  C2_member_count_invariant_bounded (bigState 1) bigState_one_reachableBounded
    0 (bigGroup 1) rfl

/-- C3: `kick_member` succeeds exactly when the kicker has role
Owner/Admin/Moderator, the target is not the Owner, and the kicker is the
Owner or strictly outranks the target; in particular a self-kick always
fails (and failure changes nothing, since only `.ok` results carry a state). -/
theorem C3_kick_authorization (s : ChainState) (now : Int)
    (gid kicker target : Nat) (g : GroupAccount) (km tm : GroupMemberAccount)
    (hg : s.groups gid = some g)
    (hk : findMember s gid kicker = some km)
    (ht : findMember s gid target = some tm) :
    ((∃ s', exec (.kick_member kicker gid target) now s = .ok s') ↔
      ((km.role = GroupRole.Owner ∨ km.role = GroupRole.Admin ∨
          km.role = GroupRole.Moderator) ∧
        tm.role ≠ GroupRole.Owner ∧
        (km.role = GroupRole.Owner ∨
          role_to_rank km.role > role_to_rank tm.role)))
    ∧ (kicker = target →
        ¬ ∃ s', exec (.kick_member kicker gid target) now s = .ok s') := by
  constructor
  · constructor
    · rintro ⟨s', hs'⟩
      simp only [exec] at hs'
      obtain ⟨g', km', tm', hg', hk', ht', h1, h2, h3, -⟩ := kick_member_ok hs'
      rw [hk] at hk'
      obtain rfl := Option.some.inj hk'
      rw [ht] at ht'
      obtain rfl := Option.some.inj ht'
      exact ⟨h1, h2, h3⟩
    · rintro ⟨h1, h2, h3⟩
      refine ⟨{ s with
        members := s.members.eraseP (memberKeyIs gid target)
        groups := fun x =>
          if x = gid then
            some { g with member_count := g.member_count - 1, updated_at := now }
          else s.groups x }, ?_⟩
      simp only [exec]
      unfold kick_member
      rw [hg]
      simp only [hk, ht, requireTx]
      rw [if_pos h1, if_pos h2, if_pos h3]
  · intro heq hex
    subst heq
    rw [hk] at ht
    obtain rfl := Option.some.inj ht
    obtain ⟨s', hs'⟩ := hex
    simp only [exec] at hs'
    obtain ⟨g', km', tm', hg', hk', ht', h1, h2, h3, -⟩ := kick_member_ok hs'
    rw [hk] at hk'
    obtain rfl := Option.some.inj hk'
    rw [hk] at ht'
    obtain rfl := Option.some.inj ht'
    rcases h3 with h3 | h3
    · exact h2 h3
    · exact absurd h3 (lt_irrefl _)

/-- C3 witness: the owner kicks the joined plain member of the concrete
group — all three conditions hold and the kick succeeds. -/
theorem C3_kick_authorization_witness :
    ∃ s', exec (.kick_member 0 0 1) 0 (bigState 1) = .ok s' :=
  (C3_kick_authorization (bigState 1) 0 0 0 1 (bigGroup 1) ownerRec
      (joinedRec 1) rfl rfl rfl).1.mpr
    ⟨Or.inl rfl, by decide, Or.inl rfl⟩

/-- C4 counterexample: the claim gives the capacity check priority — when the
group is full it is said to fail with the group-full error.  At the explicit
reachable state `cappedState` (group `0`, `max_members = 1`, already holding
its owner `0` as sole member) a `join_group` by the owner satisfies the
claim's group-full antecedent, yet the code fails with the account-creation
already-exists error, because the Anchor `init` on the membership PDA runs
before the capacity check in the handler body. -/
theorem C4_counterexample :
    Reachable cappedState ∧
    cappedState.groups 0 = some cappedGroup ∧
    cappedGroup.max_members ≠ 0 ∧
    cappedGroup.max_members ≤ cappedGroup.member_count ∧
    exec (.join_group 0 0 0) 0 cappedState = .error .accountAlreadyExists ∧
    TxError.accountAlreadyExists ≠ TxError.group GroupError.GroupFull :=
  ⟨Relation.ReflTransGen.single
      ⟨.create_group 0 0 "g" "" false false false 1 false 0, 0,
        capped_create_step⟩,
    rfl, by decide, by decide, rfl, by decide⟩

/-- C4 amended: `join_group` checks in this order — if the caller already has
a membership record in the group it fails with the already-exists error; else
if `max_members ≠ 0` and `member_count ≥ max_members` it fails with the
group-full error; otherwise it creates a `Member`-role membership and bumps
`member_count` by one (wrapping 16-bit counter) in the same atomic step. -/
theorem C4_join_characterization (s : ChainState) (now : Int)
    (new_member gid ek : Nat) (g : GroupAccount) (hg : s.groups gid = some g) :
    ((findMember s gid new_member).isSome →
      exec (.join_group new_member gid ek) now s = .error .accountAlreadyExists)
    ∧ (findMember s gid new_member = none → g.max_members ≠ 0 →
        g.max_members ≤ g.member_count →
        exec (.join_group new_member gid ek) now s = .error (.group .GroupFull))
    ∧ (findMember s gid new_member = none →
        (g.max_members = 0 ∨ g.member_count < g.max_members) →
        exec (.join_group new_member gid ek) now s = .ok
          { s with
            members :=
              { group_id := gid, member := new_member, role := GroupRole.Member,
                permissions := PERM_SEND_MESSAGES, encrypted_group_key := ek,
                joined_at := now, last_read_at := 0, is_active := true,
                is_muted := false, is_banned := false,
                invited_by := new_member } :: s.members
            groups := fun x =>
              if x = gid then
                some { g with member_count := (g.member_count + 1) % 65536,
                              updated_at := now }
              else s.groups x }) := by
  refine ⟨?_, ?_, ?_⟩
  · intro hsome
    simp only [exec]
    unfold join_group
    simp only [hg]
    rw [if_pos hsome]
  · intro hnone hmax hle
    simp only [exec]
    unfold join_group
    simp only [hg, hnone, Option.isSome_none, Bool.false_eq_true, if_false,
      requireTx]
    rw [if_neg]
    rintro (h | h)
    · exact hmax h
    · omega
  · intro hnone hcap
    simp only [exec]
    unfold join_group
    simp only [hg, hnone, Option.isSome_none, Bool.false_eq_true, if_false,
      requireTx]
    rw [if_pos hcap]

/-- C4 witness: the already-exists branch instantiated at the concrete full
group whose owner attempts to join again. -/
theorem C4_join_characterization_witness :
    exec (.join_group 0 0 0) 0 cappedState = .error .accountAlreadyExists :=
  (C4_join_characterization cappedState 0 0 0 0 cappedGroup rfl).1 (by decide)

/-- C5: with `max_members = 0` arbitrarily many joins by distinct new members
succeed — the concrete unlimited group is created from the empty chain, and
for every `n` the `join_group` call of the `(n+1)`-th distinct member succeeds, the
roster growing without bound (the 16-bit counter wraps rather than blocking). -/
theorem C5_unlimited_joins (n : Nat) :
    exec (.create_group 0 0 "g" "" false false false 0 false 0) 0 initState
        = .ok (bigState 0)
    ∧ (bigGroup n).max_members = 0
    ∧ exec (.join_group (n + 1) 0 0) 0 (bigState n) = .ok (bigState (n + 1))
    ∧ Reachable (bigState n)
    ∧ liveCount (bigState n) 0 = n + 1 :=
  ⟨bigState_zero, rfl, bigState_step n, bigState_reachable n,
    liveCount_bigState n⟩

/-- C6: `update_member_role` succeeds exactly when the updater has role
Owner or Admin and the current role of the target is not Owner (the owner
role can never be changed), and — when the new role is Admin — the updater is the
Owner; failures carry no state, so the target membership is untouched. -/
theorem C6_update_role_authorization (s : ChainState) (now : Int)
    (gid updater target : Nat) (new_role : GroupRole) (g : GroupAccount)
    (um tm : GroupMemberAccount) (hg : s.groups gid = some g)
    (hu : findMember s gid updater = some um)
    (ht : findMember s gid target = some tm) :
    (∃ s', exec (.update_member_role updater gid target new_role) now s
        = .ok s') ↔
      ((um.role = GroupRole.Owner ∨ um.role = GroupRole.Admin) ∧
        tm.role ≠ GroupRole.Owner ∧
        (new_role = GroupRole.Admin → um.role = GroupRole.Owner)) := by
  constructor
  · rintro ⟨s', hs'⟩
    simp only [exec] at hs'
    obtain ⟨g', um', tm', hg', hu', ht', h1, h2, h3, -⟩ :=
      update_member_role_ok hs'
    rw [hu] at hu'
    obtain rfl := Option.some.inj hu'
    rw [ht] at ht'
    obtain rfl := Option.some.inj ht'
    exact ⟨h1, h2, h3⟩
  · rintro ⟨h1, h2, h3⟩
    refine ⟨{ s with
      members := s.members.map fun x =>
        if memberKeyIs gid target x then
          { x with role := new_role,
                   permissions := role_permissions new_role }
        else x }, ?_⟩
    simp only [exec]
    unfold update_member_role
    simp only [hg, hu, ht, requireTx]
    rw [if_pos h1, if_pos h2, if_pos h3]

/-- C6 witness: in the concrete two-member group the owner makes member `1`
a `Moderator`, which is authorized. -/
theorem C6_update_role_authorization_witness :
    ∃ s', exec (.update_member_role 0 0 1 .Moderator) 0 (bigState 1)
      = .ok s' :=
  (C6_update_role_authorization (bigState 1) 0 0 0 1 .Moderator (bigGroup 1)
      ownerRec (joinedRec 1) rfl rfl rfl).mpr
    ⟨Or.inl rfl, by decide, by decide⟩

/-- C7: after any successful `update_member_role` to role `R`, reading the
target membership yields role `R` and exactly the fixed permission mask the
spec assigns to `R`, independently of the permissions held before. -/
theorem C7_update_role_roundtrip (s s' : ChainState) (now : Int)
    (gid updater target : Nat) (R : GroupRole)
    (h : exec (.update_member_role updater gid target R) now s = .ok s') :
    ∃ tm', findMember s' gid target = some tm' ∧ tm'.role = R ∧
      tm'.permissions = fixedMaskSpec R := by
  simp only [exec] at h
  obtain ⟨g, um, tm, hg, hu, ht, -, -, -, rfl⟩ := update_member_role_ok h
  have hcomp : ∀ x : GroupMemberAccount,
      memberKeyIs gid target
        (if memberKeyIs gid target x then
          { x with role := R, permissions := role_permissions R }
        else x) = memberKeyIs gid target x := by
    intro x
    by_cases hk : memberKeyIs gid target x = true
    · rw [if_pos hk]
      rw [hk]
      exact (memberKeyIs_iff.mpr ⟨(memberKeyIs_iff.mp hk).1, (memberKeyIs_iff.mp hk).2⟩)
    · rw [if_neg (by simpa using hk)]
  refine ⟨{ tm with role := R, permissions := role_permissions R }, ?_, rfl,
    role_permissions_eq_fixedMaskSpec R⟩
  show (s.members.map _).find? (memberKeyIs gid target) = _
  rw [List.find?_map]
  have hpf : (memberKeyIs gid target ∘ fun x =>
      if memberKeyIs gid target x then
        { x with role := R, permissions := role_permissions R }
      else x) = memberKeyIs gid target := by
    funext x
    exact hcomp x
  rw [hpf]
  rw [show s.members.find? (memberKeyIs gid target) = some tm from ht]
  have hkey : memberKeyIs gid target tm = true := List.find?_some ht
  simp only [Option.map_some']
  rw [if_pos hkey]

/-- C7 witness: the round-trip instantiated at the concrete promotion of
member `1` to `Moderator`. -/
theorem C7_update_role_roundtrip_witness :
    ∃ tm', findMember modState 0 1 = some tm' ∧
      tm'.role = GroupRole.Moderator ∧
      tm'.permissions = fixedMaskSpec GroupRole.Moderator :=
  C7_update_role_roundtrip (bigState 1) modState 0 0 0 1 .Moderator mod_step

/-- C8: an authorized `revoke_invite_link` (creator, or Owner/Admin/Moderator)
succeeds and leaves `is_active = false`; revoking the same link again still
succeeds with `is_active` still `false`; and no instruction of the program
ever turns the `is_active` of an invite link from `false` back to `true`. -/
theorem C8_revoke_terminal_idempotent (s : ChainState) (now : Int)
    (gid revoker : Nat) (code : String) (g : GroupAccount)
    (rm : GroupMemberAccount) (l : InviteLinkAccount)
    (hg : s.groups gid = some g) (hr : findMember s gid revoker = some rm)
    (hl : s.links gid code = some l)
    (hauth : l.created_by = revoker ∨ rm.role = GroupRole.Owner ∨
      rm.role = GroupRole.Admin ∨ rm.role = GroupRole.Moderator) :
    (∃ s', exec (.revoke_invite_link revoker gid code) now s = .ok s' ∧
      s'.links gid code = some { l with is_active := false } ∧
      ∃ s'', exec (.revoke_invite_link revoker gid code) now s' = .ok s'' ∧
        s''.links gid code = some { l with is_active := false })
    ∧ (∀ (i : Instr) (now2 : Int) (s2 s2' : ChainState) (gid2 : Nat)
        (code2 : String) (l2 : InviteLinkAccount),
        exec i now2 s2 = .ok s2' → s2.links gid2 code2 = some l2 →
        l2.is_active = false →
        ∃ l2', s2'.links gid2 code2 = some l2' ∧ l2'.is_active = false) := by
  constructor
  · have hstep : ∀ (t : ChainState) (lk : InviteLinkAccount),
        t.groups gid = some g → findMember t gid revoker = some rm →
        t.links gid code = some lk → lk.created_by = l.created_by →
        exec (.revoke_invite_link revoker gid code) now t = .ok
          { t with links := fun gid' c' =>
              if gid' = gid ∧ c' = code then some { lk with is_active := false }
              else t.links gid' c' } := by
      intro t lk htg htr htl hcb
      simp only [exec]
      unfold revoke_invite_link
      simp only [htg, htr, htl, requireTx]
      rw [if_pos]
      rcases hauth with hcr | hrole
      · exact Or.inl (hcb.trans hcr)
      · exact Or.inr hrole
    refine ⟨_, hstep s l hg hr hl rfl, ?_, ?_⟩
    · dsimp only
      rw [if_pos ⟨rfl, rfl⟩]
    · refine ⟨_, hstep _ { l with is_active := false } hg hr ?_ rfl, ?_⟩
      · dsimp only
        rw [if_pos ⟨rfl, rfl⟩]
      · dsimp only
        rw [if_pos ⟨rfl, rfl⟩]
  · intro i now2 s2 s2' gid2 code2 l2 hex hl2 ha
    exact links_step_inactive hex hl2 ha

/-- C8 witness: the link creator (also the group owner) revokes the concrete
invite link of the concrete group; both revocations succeed and leave the
link inactive. -/
theorem C8_revoke_terminal_idempotent_witness :
    ∃ s', exec (.revoke_invite_link 0 0 "abcd1234") 0 linkState = .ok s' ∧
      s'.links 0 "abcd1234" = some { linkRec with is_active := false } ∧
      ∃ s'', exec (.revoke_invite_link 0 0 "abcd1234") 0 s' = .ok s'' ∧
        s''.links 0 "abcd1234" = some { linkRec with is_active := false } :=
  (C8_revoke_terminal_idempotent linkState 0 0 0 "abcd1234" (bigGroup 0)
      ownerRec linkRec rfl rfl rfl (Or.inl rfl)).1

/-- C9: `join_group` performs no admission control beyond capacity and
non-membership — whenever the group exists, the caller holds no membership
record and the capacity check passes, the join succeeds for every group
record, whatever its `invite_only`, `require_approval` or any other flag; and
no instruction of the program ever fails with `RequiresApproval` or
`MemberBanned`. -/
theorem C9_join_no_admission_control :
    (∀ (s : ChainState) (now : Int) (gid caller ek : Nat) (g : GroupAccount),
      s.groups gid = some g → findMember s gid caller = none →
      (g.max_members = 0 ∨ g.member_count < g.max_members) →
      ∃ s', exec (.join_group caller gid ek) now s = .ok s')
    ∧ (∀ (i : Instr) (now : Int) (s : ChainState),
        exec i now s ≠ .error (.group .RequiresApproval) ∧
        exec i now s ≠ .error (.group .MemberBanned)) := by
  constructor
  · intro s now gid caller ek g hg hnone hcap
    exact ⟨_, (C4_join_characterization s now caller gid ek g hg).2.2 hnone hcap⟩
  · intro i now s
    constructor
    · intro h
      exact absurd rfl (exec_error_cases h).1
    · intro h
      exact absurd rfl (exec_error_cases h).2

/-- C9 witness: member `7` joins the concrete group whose `invite_only` and
`require_approval` flags are both raised; the join succeeds regardless. -/
theorem C9_join_no_admission_control_witness :
    ∃ s', exec (.join_group 7 0 0) 0 flaggedState = .ok s' :=
  C9_join_no_admission_control.1 flaggedState 0 0 7 0 flaggedGroup rfl
    (by decide) (Or.inl rfl)

/-- C10: in every reachable state every `Member`-role membership holds
exactly the SEND permission bit, and consequently the member-invite
delegation branch of the `can_invite` check never fires for a `Member` —
only Owner/Admin/Moderator callers can ever satisfy the invite or
invite-link authorization. -/
theorem C10_member_permissions_invariant (s : ChainState) (h : Reachable s) :
    (∀ m ∈ s.members, m.role = GroupRole.Member →
      m.permissions = PERM_SEND_MESSAGES)
    ∧ (∀ (gid : Nat) (g : GroupAccount) (m : GroupMemberAccount),
        s.groups gid = some g → m ∈ s.members → can_invite g m →
        (m.role = GroupRole.Owner ∨ m.role = GroupRole.Admin ∨
          m.role = GroupRole.Moderator)) := by
  have hp := permInv_reachable h
  constructor
  · intro m hm hrole
    rw [hp m hm, hrole]
    rfl
  · intro gid g m hg hm hci
    rcases hci with hr | hr | hr | ⟨hd, hperm⟩
    · exact Or.inl hr
    · exact Or.inr (Or.inl hr)
    · exact Or.inr (Or.inr hr)
    · have hmask := hp m hm
      cases hrole : m.role with
      | Owner => exact Or.inl rfl
      | Admin => exact Or.inr (Or.inl rfl)
      | Moderator => exact Or.inr (Or.inr rfl)
      | Member =>
        rw [hrole] at hmask
        rw [hmask] at hperm
        exact absurd (by decide) hperm

/-- C10 witness: the invariant and its consequence instantiated at the
concrete reachable two-member state. -/
theorem C10_member_permissions_invariant_witness :
    (∀ m ∈ (bigState 1).members, m.role = GroupRole.Member →
      m.permissions = PERM_SEND_MESSAGES)
    ∧ (∀ (gid : Nat) (g : GroupAccount) (m : GroupMemberAccount),
        (bigState 1).groups gid = some g → m ∈ (bigState 1).members →
        can_invite g m →
        (m.role = GroupRole.Owner ∨ m.role = GroupRole.Admin ∨
          m.role = GroupRole.Moderator)) :=
  C10_member_permissions_invariant (bigState 1) (bigState_reachable 1)

end KeyRegistry
